import Mathlib

/-!
Verification of the MNIST classification notebooks (PyTorch and TensorFlow).

The development shallowly embeds the logic the notebooks themselves supply:
the batch provider behaviour (`DataLoader` / `Dataset.batch` chunking), the
shape pipeline of the two models, the training loops, and the PyTorch
evaluation routine `test`, together with its textual reporting.
Framework internals (convolution arithmetic, autodiff, Adam) are treated as
abstract components, exactly as the notebooks consume them.
-/

namespace MNISTNotebooks

/-! ## Batch provider

`torch.utils.data.DataLoader(data, batch_size=B, shuffle=True)` (with the
default `drop_last=False`), and likewise `tf.data.Dataset.batch(B)`, yield the
(possibly shuffled) sample sequence cut into consecutive chunks of size `B`,
the last chunk possibly shorter.  `chunkList B l` is that chunking of the
sample sequence `l`.
-/

def chunkList {α : Type} (B : Nat) (l : List α) : List (List α) :=
  match l with
  | [] => []
  | x :: xs =>
    if _h : B = 0 then []
    else (x :: xs).take B :: chunkList B ((x :: xs).drop B)
termination_by l.length
decreasing_by
  simp only [List.length_drop, List.length_cons]
  omega

/-- One epoch of the batch provider over a partition: the loader walks some
sample order (a permutation of the partition when shuffling, the partition
itself when not) and cuts it into consecutive batches of size `B`. -/
def epochBatches {α : Type} (B : Nat) (order : List α) : List (List α) :=
  chunkList B order

/-! ## Prediction: `torch.max(test_output, 1)[1]`

`torch.max(·, 1)` reduces each row to its maximum value and the index of the
first (lowest-index) occurrence of that maximum.  `argmaxFirst` is that index
for a single row of per-class scores.
-/

def argmaxFirst : List ℚ → Nat
  | [] => 0
  | x :: xs => if xs.all (fun y => decide (y ≤ x)) then 0 else argmaxFirst xs + 1

/-! ## Shape pipeline of the PyTorch `CNN`

Shapes of 4-D tensors in PyTorch layout `(batch, channels, height, width)`.
Each layer constructor below carries exactly the hyperparameters the notebook
passes; the spatial arithmetic is the documented formula of the corresponding
layer (dilation 1 everywhere, `MaxPool2d` with default stride = kernel size
and no padding).  A shape mismatch yields `none` (the framework raises).
-/

structure Shape4 where
  batch : Nat
  channels : Nat
  height : Nat
  width : Nat
deriving DecidableEq

def conv2dShape (inChannels outChannels kernelSize stride padding : Nat)
    (s : Shape4) : Option Shape4 :=
  if s.channels = inChannels ∧ kernelSize ≤ s.height + 2 * padding ∧
      kernelSize ≤ s.width + 2 * padding ∧ 0 < stride then
    some ⟨s.batch, outChannels,
      (s.height + 2 * padding - kernelSize) / stride + 1,
      (s.width + 2 * padding - kernelSize) / stride + 1⟩
  else none

def maxPool2dShape (kernelSize : Nat) (s : Shape4) : Option Shape4 :=
  if 0 < kernelSize ∧ kernelSize ≤ s.height ∧ kernelSize ≤ s.width then
    some ⟨s.batch, s.channels,
      (s.height - kernelSize) / kernelSize + 1,
      (s.width - kernelSize) / kernelSize + 1⟩
  else none

/-- `nn.Linear(inFeatures, outFeatures)` on a 2-D input `(batch, features)`. -/
def linearShape (inFeatures outFeatures : Nat) (s : Nat × Nat) :
    Option (Nat × Nat) :=
  if s.2 = inFeatures then some (s.1, outFeatures) else none

/-- `x.view(x.size(0), -1)`: flatten all non-batch dimensions. -/
def viewFlattenShape (s : Shape4) : Nat × Nat :=
  (s.batch, s.channels * s.height * s.width)

/-- Shape behaviour of `CNN.forward`: `conv1` = `Conv2d(1, 16, 5, 1, 2)`,
`ReLU` (shape-preserving), `MaxPool2d(2)`; `conv2` = `Conv2d(16, 32, 5, 1, 2)`,
`ReLU`, `MaxPool2d(2)`; flatten; `out` = `Linear(32 * 7 * 7, 10)`.  The
result is the pair `(output, x)` the notebook returns: classification scores
first, flattened `conv2` features second. -/
def CNNforwardShape (s : Shape4) : Option ((Nat × Nat) × (Nat × Nat)) := do
  let s1 ← conv2dShape 1 16 5 1 2 s
  let s1 ← maxPool2dShape 2 s1
  let s2 ← conv2dShape 16 32 5 1 2 s1
  let s2 ← maxPool2dShape 2 s2
  let flat := viewFlattenShape s2
  let out ← linearShape (32 * 7 * 7) 10 flat
  return (out, flat)

/-! ## Shape pipeline of the TensorFlow `MyModel`

TensorFlow layout `(batch, height, width, channels)`.  `Conv2D` uses the
notebook's arguments (`filters=32, kernel_size=3`) with the Keras defaults:
`strides=1`, `padding='valid'`.  `Dense` layers infer their input width, so
they never mismatch; they map the last dimension to `units`.
-/

structure ShapeNHWC where
  batch : Nat
  height : Nat
  width : Nat
  channels : Nat
deriving DecidableEq

def tfConv2dShape (filters kernelSize : Nat) (s : ShapeNHWC) :
    Option ShapeNHWC :=
  if kernelSize ≤ s.height ∧ kernelSize ≤ s.width then
    some ⟨s.batch, s.height - kernelSize + 1, s.width - kernelSize + 1, filters⟩
  else none

def tfFlattenShape (s : ShapeNHWC) : Nat × Nat :=
  (s.batch, s.height * s.width * s.channels)

def denseShape (units : Nat) (s : Nat × Nat) : Nat × Nat :=
  (s.1, units)

/-- Shape behaviour of `MyModel.call`: `conv1` = `Conv2D(32, 3, relu)`,
`flatten`, `d1` = `Dense(128, relu)`, `d2` = `Dense(10)`. -/
def MyModelCallShape (s : ShapeNHWC) : Option (Nat × Nat) := do
  let s1 ← tfConv2dShape 32 3 s
  let f := tfFlattenShape s1
  let f1 := denseShape 128 f
  return denseShape 10 f1

/-! ## Textual reporting

`fmtFixed d q` renders the rational `q` with `d` decimal digits, modelling
Python's fixed-point float formatting (`'%.3f'`, `'{:.4f}'` written out);
ties are rounded up, which agrees with Python on every value the notebooks
print except exact binary ties, immaterial here.
-/

def fmtFixed (decimals : Nat) (q : ℚ) : String :=
  let n : Int := (q * ((10 : ℚ) ^ decimals) + 1 / 2).floor
  let d : Int := (10 : Int) ^ decimals
  let ip : Int := n / d
  let fp : Nat := (n % d).toNat
  let fracStr := toString fp
  let pad := String.mk (List.replicate (decimals - fracStr.length) '0')
  toString ip ++ "." ++ pad ++ fracStr

/-- The training progress line of the PyTorch notebook, with the format
string `'Epoch [.../...], Step [.../...], Loss: ...'` written out. -/
def progressLine (epoch numEpochs step totalStep : Nat) (loss : ℚ) : String :=
  "Epoch [" ++ toString epoch ++ "/" ++ toString numEpochs ++ "], Step [" ++
    toString step ++ "/" ++ toString totalStep ++ "], Loss: " ++
    fmtFixed 4 loss

/-- The evaluation report line the PyTorch notebook actually prints: the
sample count `10000` is a literal in the format string. -/
def testReportLine (a : ℚ) : String :=
  "Test Accuracy of the model on the 10000 test images: " ++ fmtFixed 3 a

/-- Modelled from the spec: the report line as the spec words it, with `N`
the size of the test partition (`Test Accuracy of the model on the N test
images: <3-decimal float>`). -/
def specTestReportLine (n : Nat) (a : ℚ) : String :=
  "Test Accuracy of the model on the " ++ toString n ++ " test images: " ++
    fmtFixed 3 a

/-! ## PyTorch notebook, value level

A batch is the pair of stacked images and stacked labels a loader yields.
The model, loss, autodiff and Adam are the framework's and therefore enter as
abstract components (`PyComponents`); the notebook's own control flow —
`train` and `test` — is embedded line by line.  `PyGlobal` is the notebook's
module-level mutable state: the model parameters and their gradient buffers,
the optimizer state, and the module's train/eval mode flag.
-/

structure Batch (Img : Type) where
  images : List Img
  labels : List Nat
deriving DecidableEq

structure PyGlobal (P G O : Type) where
  params : P
  gradBuf : G
  optState : O
  training : Bool
deriving DecidableEq

structure PyComponents (P G O Img : Type) where
  cnnApply : P → List Img → List (List ℚ) × List (List ℚ)
  loss_func : List (List ℚ) → List Nat → ℚ
  zeroG : G
  gradAccum : G → P → Batch Img → G
  optStep : O → P → G → O × P

inductive PyEvent (Img : Type) where
  | forwardPass (images : List Img) (trainingMode : Bool)
  | lossEval (labels : List Nat)
  | zeroGradients
  | backwardPass
  | optimizerStep
deriving DecidableEq

/-- Local variables of `test()` : `correct` and `total` are initialised and
never touched again in the source; `accuracy` is unassigned (`none`) until
the first batch and overwritten by every batch. -/
structure TestLocals where
  correct : Nat
  total : Nat
  accuracy : Option ℚ
deriving DecidableEq

/-- The `for images, labels in loaders['test']` body of `test()` :
`test_output, last_layer = cnn(images)`, `pred_y = torch.max(test_output,
1)[1]`, `accuracy = (pred_y == labels).sum().item() / float(labels.size(0))`.
-/
def testLoop {P G O Img : Type} (c : PyComponents P G O Img) (params : P)
    (testLoader : List (Batch Img)) : TestLocals :=
  testLoader.foldl
    (fun st batch =>
      let test_output := (c.cnnApply params batch.images).1
      let pred_y := test_output.map argmaxFirst
      let accuracy : ℚ :=
        (((pred_y.zip batch.labels).countP (fun pr => decide (pr.1 = pr.2)) : ℚ)) /
          ((batch.labels.length : ℚ))
      { st with accuracy := some accuracy })
    { correct := 0, total := 0, accuracy := none }

/-- `test()` : `cnn.eval()`, the no-grad loop above, then the print.  If the
loop never ran, the print's reference to `accuracy` raises
`UnboundLocalError`, modelled as the `Except.error` branch. -/
def test {P G O Img : Type} (c : PyComponents P G O Img) (g : PyGlobal P G O)
    (testLoader : List (Batch Img)) : PyGlobal P G O × Except String String :=
  let g1 := { g with training := false }
  let locals := testLoop c g1.params testLoader
  match locals.accuracy with
  | none => (g1, Except.error
      "UnboundLocalError: local variable accuracy referenced before assignment")
  | some a => (g1, Except.ok (testReportLine a))

/-- One iteration of the training loop body: forward (`cnn(b_x)[0]`), loss,
`optimizer.zero_grad()`, `loss.backward()`, `optimizer.step()`.  Returns the
new globals, the batch loss, and the trace of performed operations. -/
def trainStepPy {P G O Img : Type} (c : PyComponents P G O Img)
    (g : PyGlobal P G O) (b : Batch Img) :
    PyGlobal P G O × ℚ × List (PyEvent Img) :=
  let output := (c.cnnApply g.params b.images).1
  let ev0 := [PyEvent.forwardPass b.images g.training]
  let loss := c.loss_func output b.labels
  let ev1 := ev0 ++ [PyEvent.lossEval b.labels]
  let g1 := { g with gradBuf := c.zeroG }
  let ev2 := ev1 ++ [PyEvent.zeroGradients]
  let g2 := { g1 with gradBuf := c.gradAccum g1.gradBuf g1.params b }
  let ev3 := ev2 ++ [PyEvent.backwardPass]
  let r := c.optStep g2.optState g2.params g2.gradBuf
  let g3 := { g2 with optState := r.1, params := r.2 }
  let ev4 := ev3 ++ [PyEvent.optimizerStep]
  (g3, loss, ev4)

/-- `for i, (images, labels) in enumerate(loaders['train'])`, with the
reporting guard `if (i+1) % 100 == 0`. -/
def trainEpochPy {P G O Img : Type} (c : PyComponents P G O Img)
    (g : PyGlobal P G O) (msgs : List String) (evs : List (PyEvent Img))
    (batches : List (Batch Img)) (i epoch num_epochs total_step : Nat) :
    PyGlobal P G O × List String × List (PyEvent Img) :=
  match batches with
  | [] => (g, msgs, evs)
  | b :: rest =>
    let r := trainStepPy c g b
    let msgs2 := if (i + 1) % 100 = 0 then
        msgs ++ [progressLine (epoch + 1) num_epochs (i + 1) total_step r.2.1]
      else msgs
    trainEpochPy c r.1 msgs2 (evs ++ r.2.2) rest (i + 1) epoch num_epochs
      total_step

/-- `for epoch in range(num_epochs)`. -/
def trainRangePy {P G O Img : Type} (c : PyComponents P G O Img)
    (g : PyGlobal P G O) (msgs : List String) (evs : List (PyEvent Img))
    (trainLoader : List (Batch Img)) (epochs : List Nat)
    (num_epochs total_step : Nat) :
    PyGlobal P G O × List String × List (PyEvent Img) :=
  match epochs with
  | [] => (g, msgs, evs)
  | e :: rest =>
    let r := trainEpochPy c g msgs evs trainLoader 0 e num_epochs total_step
    trainRangePy c r.1 r.2.1 r.2.2 trainLoader rest num_epochs total_step

/-- `train(num_epochs, cnn, loaders)` : `cnn.train()`, `total_step =
len(loaders['train'])`, then the epoch loop. -/
def train {P G O Img : Type} (c : PyComponents P G O Img) (num_epochs : Nat)
    (g0 : PyGlobal P G O) (trainLoader : List (Batch Img)) :
    PyGlobal P G O × List String × List (PyEvent Img) :=
  let g1 := { g0 with training := true }
  let total_step := trainLoader.length
  trainRangePy c g1 [] [] trainLoader (List.range num_epochs) num_epochs
    total_step

/-- The operations one training batch triggers, in source order. -/
def pyBatchEvents {Img : Type} (b : Batch Img) : List (PyEvent Img) :=
  [PyEvent.forwardPass b.images true, PyEvent.lossEval b.labels,
   PyEvent.zeroGradients, PyEvent.backwardPass, PyEvent.optimizerStep]

/-! ## TensorFlow notebook, value level

`tf.keras.metrics.Mean` keeps a running total and count;
`SparseCategoricalAccuracy` keeps the number of matching argmax predictions
and the number of samples seen.  The model, loss, `GradientTape` and Adam are
abstract components (`TfComponents`); `train_step`, `test_step` and the epoch
loop are embedded line by line, emitting a trace of the operations performed.
-/

structure MeanMetric where
  total : ℚ
  count : Nat
deriving DecidableEq

def MeanMetric.reset : MeanMetric := ⟨0, 0⟩

def MeanMetric.update (m : MeanMetric) (v : ℚ) : MeanMetric :=
  ⟨m.total + v, m.count + 1⟩

structure AccMetric where
  matched : ℚ
  count : Nat
deriving DecidableEq

def AccMetric.reset : AccMetric := ⟨0, 0⟩

def AccMetric.update (m : AccMetric) (labels : List Nat)
    (preds : List (List ℚ)) : AccMetric :=
  ⟨m.matched +
     (((preds.map argmaxFirst).zip labels).countP
       (fun pr => decide (pr.1 = pr.2)) : ℚ),
   m.count + labels.length⟩

structure TfState (V O : Type) where
  vars : V
  optState : O
  train_loss : MeanMetric
  train_accuracy : AccMetric
  test_loss : MeanMetric
  test_accuracy : AccMetric
deriving DecidableEq

structure TfComponents (V Gr O Img : Type) where
  modelApply : V → List Img → Bool → List (List ℚ)
  loss_object : List Nat → List (List ℚ) → ℚ
  tapeGradient : V → List Img → List Nat → Gr
  apply_gradients : O → V → Gr → O × V

inductive TfEvent (Img : Type) where
  | metricsReset
  | forwardPass (images : List Img) (training : Bool)
  | lossEval (labels : List Nat)
  | gradientCompute (labels : List Nat)
  | applyGradientsStep
  | trainLossUpdate
  | trainAccUpdate
  | testLossUpdate
  | testAccUpdate
  | epochPrint
deriving DecidableEq

/-- `train_step(images, labels)` : forward with `training=True`, loss,
`tape.gradient`, `optimizer.apply_gradients`, `train_loss(loss)`,
`train_accuracy(labels, predictions)` — in source order. -/
def train_step {V Gr O Img : Type} (c : TfComponents V Gr O Img)
    (st : TfState V O) (b : Batch Img) : TfState V O × List (TfEvent Img) :=
  let predictions := c.modelApply st.vars b.images true
  let ev0 := [TfEvent.forwardPass b.images true]
  let loss := c.loss_object b.labels predictions
  let ev1 := ev0 ++ [TfEvent.lossEval b.labels]
  let gradients := c.tapeGradient st.vars b.images b.labels
  let ev2 := ev1 ++ [TfEvent.gradientCompute b.labels]
  let r := c.apply_gradients st.optState st.vars gradients
  let st1 := { st with optState := r.1, vars := r.2 }
  let ev3 := ev2 ++ [TfEvent.applyGradientsStep]
  let st2 := { st1 with train_loss := st1.train_loss.update loss }
  let ev4 := ev3 ++ [TfEvent.trainLossUpdate]
  let st3 := { st2 with
    train_accuracy := st2.train_accuracy.update b.labels predictions }
  let ev5 := ev4 ++ [TfEvent.trainAccUpdate]
  (st3, ev5)

/-- `test_step(images, labels)` : forward with `training=False`, loss,
`test_loss(t_loss)`, `test_accuracy(labels, predictions)`. -/
def test_step {V Gr O Img : Type} (c : TfComponents V Gr O Img)
    (st : TfState V O) (b : Batch Img) : TfState V O × List (TfEvent Img) :=
  let predictions := c.modelApply st.vars b.images false
  let ev0 := [TfEvent.forwardPass b.images false]
  let t_loss := c.loss_object b.labels predictions
  let ev1 := ev0 ++ [TfEvent.lossEval b.labels]
  let st1 := { st with test_loss := st.test_loss.update t_loss }
  let ev2 := ev1 ++ [TfEvent.testLossUpdate]
  let st2 := { st1 with
    test_accuracy := st1.test_accuracy.update b.labels predictions }
  let ev3 := ev2 ++ [TfEvent.testAccUpdate]
  (st2, ev3)

/-- `for images, labels in ds: step(images, labels)`. -/
def tfForEach {V O Img : Type}
    (step : TfState V O → Batch Img → TfState V O × List (TfEvent Img)) :
    TfState V O → List (TfEvent Img) → List (Batch Img) →
      TfState V O × List (TfEvent Img)
  | st, evs, [] => (st, evs)
  | st, evs, b :: rest =>
    let r := step st b
    tfForEach step r.1 (evs ++ r.2) rest

/-- The body of `for epoch in range(EPOCHS)` : reset the four metrics, run
`train_step` over `train_ds`, run `test_step` over `test_ds`, print. -/
def tfEpochLoop {V Gr O Img : Type} (c : TfComponents V Gr O Img)
    (train_ds test_ds : List (Batch Img)) :
    TfState V O → List (TfEvent Img) → List Nat →
      TfState V O × List (TfEvent Img)
  | st, evs, [] => (st, evs)
  | st, evs, _e :: rest =>
    let st1 := { st with
                 train_loss := MeanMetric.reset
                 train_accuracy := AccMetric.reset
                 test_loss := MeanMetric.reset
                 test_accuracy := AccMetric.reset }
    let evs1 := evs ++ [TfEvent.metricsReset]
    let r2 := tfForEach (train_step c) st1 evs1 train_ds
    let r3 := tfForEach (test_step c) r2.1 r2.2 test_ds
    let evs4 := r3.2 ++ [TfEvent.epochPrint]
    tfEpochLoop c train_ds test_ds r3.1 evs4 rest

/-- The whole training cell: `for epoch in range(EPOCHS): ...`. -/
def tfTrainingLoop {V Gr O Img : Type} (c : TfComponents V Gr O Img)
    (EPOCHS : Nat) (train_ds test_ds : List (Batch Img)) (st0 : TfState V O) :
    TfState V O × List (TfEvent Img) :=
  tfEpochLoop c train_ds test_ds st0 [] (List.range EPOCHS)

/-- The operations one TensorFlow training batch triggers, in source order. -/
def trainStepEvents {Img : Type} (b : Batch Img) : List (TfEvent Img) :=
  [TfEvent.forwardPass b.images true, TfEvent.lossEval b.labels,
   TfEvent.gradientCompute b.labels, TfEvent.applyGradientsStep,
   TfEvent.trainLossUpdate, TfEvent.trainAccUpdate]

/-- The operations one TensorFlow test batch triggers, in source order. -/
def testStepEvents {Img : Type} (b : Batch Img) : List (TfEvent Img) :=
  [TfEvent.forwardPass b.images false, TfEvent.lossEval b.labels,
   TfEvent.testLossUpdate, TfEvent.testAccUpdate]

/-- The operations one epoch of the TensorFlow loop triggers, in order. -/
def tfEpochEvents {Img : Type} (train_ds test_ds : List (Batch Img)) :
    List (TfEvent Img) :=
  TfEvent.metricsReset :: ((train_ds.map trainStepEvents).flatten ++
    (test_ds.map testStepEvents).flatten ++ [TfEvent.epochPrint])

/-! ## Concrete instances used in evaluations and witnesses -/

/-- A score row whose first maximum is class 0: a model emitting this row for
every image always predicts class 0. -/
def alwaysClassZero : List ℚ := [1, 0, 0, 0, 0, 0, 0, 0, 0, 0]

/-- Components forcing the model to predict class 0 for every image, with
trivial loss and optimizer plumbing. -/
def forcedZeroComponents : PyComponents Unit Unit Unit Unit where
  cnnApply := fun _ imgs =>
    (imgs.map (fun _ => alwaysClassZero), imgs.map (fun _ => []))
  loss_func := fun _ _ => 0
  zeroG := ()
  gradAccum := fun g _ _ => g
  optStep := fun o p _ => (o, p)

/-- A test partition of two singleton batches with labels `0` and `1`:
`N = 2` samples of which `M = 1` carries label `0`. -/
def twoBatchTestLoader : List (Batch Unit) := [⟨[()], [0]⟩, ⟨[()], [1]⟩]

/-- A single batch of two images, both labelled `0` (a partition of `N = 2`).
-/
def oneBatchOfTwo : List (Batch Unit) := [⟨[(), ()], [0, 0]⟩]

/-- Trivial training components over unit types. -/
def trivialComponents : PyComponents Unit Unit Unit Unit where
  cnnApply := fun _ _ => ([], [])
  loss_func := fun _ _ => 0
  zeroG := ()
  gradAccum := fun _ _ _ => ()
  optStep := fun _ _ _ => ((), ())

/-- Components agreeing with `trivialComponents` on the score (first)
component of the model output but differing on the feature (second)
component. -/
def trivialComponentsAlt : PyComponents Unit Unit Unit Unit where
  cnnApply := fun _ _ => ([], [[1]])
  loss_func := fun _ _ => 0
  zeroG := ()
  gradAccum := fun _ _ _ => ()
  optStep := fun _ _ _ => ((), ())

/-- One hundred empty batches: enough for exactly one progress line. -/
def hundredBatches : List (Batch Unit) := List.replicate 100 ⟨[], []⟩

/-- Trivial TensorFlow components over unit types. -/
def tfTrivialComponents : TfComponents Unit Unit Unit Unit where
  modelApply := fun _ _ _ => []
  loss_object := fun _ _ => 0
  tapeGradient := fun _ _ _ => ()
  apply_gradients := fun o v _ => (o, v)

/-- The initial TensorFlow state: fresh metrics. -/
def tfInitState : TfState Unit Unit :=
  ⟨(), (), MeanMetric.reset, AccMetric.reset, MeanMetric.reset,
   AccMetric.reset⟩

/-- Initial PyTorch globals over unit types. -/
def pyInitGlobal : PyGlobal Unit Unit Unit := ⟨(), (), (), false⟩

/-! ## Properties of the batch provider chunking -/

theorem chunkList_nil {α : Type} (B : Nat) : chunkList B ([] : List α) = [] := by
  simp [chunkList]

theorem chunkList_cons {α : Type} (B : Nat) (hB : 0 < B) (x : α) (xs : List α) :
    chunkList B (x :: xs) =
      (x :: xs).take B :: chunkList B ((x :: xs).drop B) := by
  rw [chunkList]
  simp [Nat.pos_iff_ne_zero.mp hB]

/-- Joining the chunks recovers the original sequence: no sample is dropped
or duplicated. -/
theorem chunkList_flatten {α : Type} (B : Nat) (hB : 0 < B) (l : List α) :
    (chunkList B l).flatten = l := by
  induction l using chunkList.induct B with
  | case1 => simp [chunkList_nil]
  | case2 x xs h => exact absurd h (Nat.pos_iff_ne_zero.mp hB)
  | case3 x xs h ih =>
    rw [chunkList_cons B hB]
    simp only [List.flatten_cons, ih]
    exact List.take_append_drop B (x :: xs)

theorem ceil_div_rec (N B : Nat) (hB : 0 < B) (hN : 0 < N) :
    (N - B + B - 1) / B + 1 = (N + B - 1) / B := by
  have hR : N + B - 1 = (N - 1) + B := by omega
  rw [hR, Nat.add_div_right _ hB]
  rcases Nat.lt_or_ge N (B + 1) with hle | hgt
  · have h0 : N - B = 0 := by omega
    rw [h0]
    have h1 : 0 + B - 1 = B - 1 := by omega
    rw [h1, Nat.div_eq_of_lt (by omega), Nat.div_eq_of_lt (by omega)]
  · have h1 : N - B + B - 1 = N - 1 := by omega
    rw [h1]

/-- The number of chunks is `⌈N/B⌉`. -/
theorem chunkList_length {α : Type} (B : Nat) (hB : 0 < B) (l : List α) :
    (chunkList B l).length = (l.length + B - 1) / B := by
  induction l using chunkList.induct B with
  | case1 =>
    rw [chunkList_nil]
    simp only [List.length_nil, List.length, Nat.zero_add]
    exact (Nat.div_eq_of_lt (by omega)).symm
  | case2 x xs h => exact absurd h (Nat.pos_iff_ne_zero.mp hB)
  | case3 x xs h ih =>
    rw [chunkList_cons B hB]
    simp only [List.length_cons, ih, List.length_drop]
    exact ceil_div_rec (xs.length + 1) B hB (by omega)

/-- Every chunk except possibly the last has length exactly `B`. -/
theorem chunkList_mem_dropLast_length {α : Type} (B : Nat) (hB : 0 < B)
    (l : List α) (c : List α) (hc : c ∈ (chunkList B l).dropLast) :
    c.length = B := by
  induction l using chunkList.induct B generalizing c with
  | case1 => simp [chunkList_nil] at hc
  | case2 x xs h => exact absurd h (Nat.pos_iff_ne_zero.mp hB)
  | case3 x xs h ih =>
    rw [chunkList_cons B hB] at hc
    match hrec : chunkList B ((x :: xs).drop B) with
    | [] => simp [hrec] at hc
    | c' :: cs =>
      rw [hrec, List.dropLast_cons₂, List.mem_cons] at hc
      rcases hc with hc | hc
      · subst hc
        have hlen : B ≤ (x :: xs).length := by
          by_contra hlt
          push_neg at hlt
          have hnil : (x :: xs).drop B = [] := List.drop_eq_nil_of_le (by omega)
          rw [hnil, chunkList_nil] at hrec
          exact List.noConfusion hrec
        simp only [List.length_take, List.length_cons] at *
        omega
      · exact ih c (by rw [hrec]; exact hc)

/-- The last chunk has length `N mod B` when `B` does not divide `N`, and
length `B` otherwise. -/
theorem chunkList_getLast?_length {α : Type} (B : Nat) (hB : 0 < B)
    (l : List α) (c : List α) (hc : (chunkList B l).getLast? = some c) :
    c.length = if l.length % B = 0 then B else l.length % B := by
  induction l using chunkList.induct B generalizing c with
  | case1 => simp [chunkList_nil] at hc
  | case2 x xs h => exact absurd h (Nat.pos_iff_ne_zero.mp hB)
  | case3 x xs h ih =>
    rw [chunkList_cons B hB] at hc
    match hrec : chunkList B ((x :: xs).drop B) with
    | [] =>
      rw [hrec, List.getLast?_singleton] at hc
      injection hc with hc
      subst hc
      have hlen : (x :: xs).length ≤ B := by
        by_contra hlt
        push_neg at hlt
        simp only [List.length_cons] at hlt
        have hne : (x :: xs).drop B ≠ [] := by
          rw [← List.length_pos]
          simp only [List.length_drop, List.length_cons]
          omega
        match hd : (x :: xs).drop B with
        | [] => exact hne hd
        | y :: ys =>
          rw [hd, chunkList_cons B hB] at hrec
          exact List.noConfusion hrec
      simp only [List.length_cons] at hlen
      simp only [List.length_take, List.length_cons]
      rcases Nat.eq_or_lt_of_le hlen with heq | hlt
      · rw [heq]
        simp [Nat.min_self, Nat.mod_self]
      · rw [Nat.min_eq_right (by omega)]
        rw [Nat.mod_eq_of_lt (by omega)]
        have hne0 : ¬ (xs.length + 1 = 0) := by omega
        simp only [if_neg hne0]
    | c' :: cs =>
      rw [hrec, List.getLast?_cons_cons] at hc
      have hc2 : (chunkList B ((x :: xs).drop B)).getLast? = some c := by
        rw [hrec]
        exact hc
      have hlt : B < (x :: xs).length := by
        by_contra hle
        push_neg at hle
        rw [List.drop_eq_nil_of_le hle, chunkList_nil] at hrec
        exact List.noConfusion hrec
      have hrw := ih c hc2
      simp only [List.length_drop, List.length_cons] at hrw
      simp only [List.length_cons]
      have hble : B ≤ xs.length + 1 := by
        simp only [List.length_cons] at hlt
        omega
      have hmod : (xs.length + 1 - B) % B = (xs.length + 1) % B := by
        conv_rhs => rw [← Nat.sub_add_cancel hble]
        rw [Nat.add_mod_right]
      rw [hmod] at hrw
      exact hrw


/-! ## Properties of the first-maximum index -/

theorem argmaxFirst_lt_length (l : List ℚ) (hl : l ≠ []) :
    argmaxFirst l < l.length := by
  induction l with
  | nil => exact absurd rfl hl
  | cons x xs ih =>
    rw [argmaxFirst]
    by_cases hall : xs.all (fun y => decide (y ≤ x))
    · simp [hall]
    · rw [if_neg hall]
      have hxs : xs ≠ [] := by
        intro hnil
        rw [hnil] at hall
        exact hall rfl
      simpa using Nat.succ_lt_succ (ih hxs)

theorem argmaxFirst_is_max (l : List ℚ) (j : Nat) (hj : j < l.length) :
    l.getD j 0 ≤ l.getD (argmaxFirst l) 0 := by
  induction l generalizing j with
  | nil => simp at hj
  | cons x xs ih =>
    rw [argmaxFirst]
    by_cases hall : xs.all (fun y => decide (y ≤ x))
    · rw [if_pos hall]
      match j with
      | 0 => simp
      | j + 1 =>
        simp only [List.getD_cons_succ, List.getD_cons_zero]
        have hj2 : j < xs.length := by simpa using hj
        have hmem : xs.getD j 0 ∈ xs := by
          rw [List.getD_eq_getElem _ _ hj2]
          apply List.getElem_mem
        have := List.all_eq_true.mp hall _ hmem
        simpa using this
    · rw [if_neg hall]
      have hxs : xs ≠ [] := by
        intro hnil
        rw [hnil] at hall
        exact hall rfl
      simp only [List.getD_cons_succ]
      match j with
      | 0 =>
        simp only [List.getD_cons_zero]
        rw [List.all_eq_true] at hall
        push_neg at hall
        obtain ⟨y, hy, hxy⟩ := hall
        have hxy2 : x < y := by simpa using hxy
        obtain ⟨k, hk, hky⟩ := List.mem_iff_getElem.mp hy
        calc x ≤ y := le_of_lt hxy2
          _ = xs.getD k 0 := by rw [List.getD_eq_getElem _ _ hk, hky]
          _ ≤ xs.getD (argmaxFirst xs) 0 := ih k hk
      | j + 1 =>
        simp only [List.getD_cons_succ]
        exact ih j (by simpa using hj)

theorem argmaxFirst_tie_lowest (l : List ℚ) (j : Nat) (hj : j < l.length)
    (htie : l.getD j 0 = l.getD (argmaxFirst l) 0) : argmaxFirst l ≤ j := by
  induction l generalizing j with
  | nil => simp at hj
  | cons x xs ih =>
    rw [argmaxFirst] at htie ⊢
    by_cases hall : xs.all (fun y => decide (y ≤ x))
    · rw [if_pos hall]
      exact Nat.zero_le j
    · rw [if_neg hall] at htie ⊢
      match j with
      | 0 =>
        exfalso
        simp only [List.getD_cons_zero, List.getD_cons_succ] at htie
        rw [List.all_eq_true] at hall
        push_neg at hall
        obtain ⟨y, hy, hxy⟩ := hall
        have hxy2 : x < y := by simpa using hxy
        obtain ⟨k, hk, hky⟩ := List.mem_iff_getElem.mp hy
        have hylt : x < xs.getD k 0 := by
          rw [List.getD_eq_getElem _ _ hk, hky]
          exact hxy2
        have := argmaxFirst_is_max xs k hk
        rw [← htie] at this
        exact absurd (lt_of_lt_of_le hylt this) (lt_irrefl x)
      | j + 1 =>
        simp only [List.getD_cons_succ] at htie
        exact Nat.succ_le_succ (ih j (by simpa using hj) htie)


/-! ## Claims -/

/-- Claim C2: for every dataset partition of size `N` and every positive
batch size `B`, one epoch traversal of the batch provider yields exactly
`⌈N/B⌉` batches whose samples, taken together as a multiset, equal the
partition, with every batch of size `B` except the last, which has size
`N mod B` when `B` does not divide `N` and size `B` otherwise. -/
theorem claim_C2_batch_provider_epoch {α : Type} (data order : List α)
    (B : Nat) (hB : 0 < B) (hperm : order.Perm data) :
    (epochBatches B order).length = (data.length + B - 1) / B
    ∧ ((epochBatches B order).flatten : Multiset α) = (data : Multiset α)
    ∧ (∀ c ∈ (epochBatches B order).dropLast, c.length = B)
    ∧ (∀ c, (epochBatches B order).getLast? = some c →
        c.length = if data.length % B = 0 then B else data.length % B) := by
  have hlen : order.length = data.length := hperm.length_eq
  refine ⟨?_, ?_, ?_, ?_⟩
  · rw [epochBatches, chunkList_length B hB, hlen]
  · rw [epochBatches]
    exact Multiset.coe_eq_coe.mpr (by rw [chunkList_flatten B hB]; exact hperm)
  · intro c hc
    exact chunkList_mem_dropLast_length B hB order c hc
  · intro c hc
    rw [epochBatches] at hc
    rw [← hlen]
    exact chunkList_getLast?_length B hB order c hc

/-- Witness for claim C2 at a shuffled partition of 5 samples and batch size
2: three batches, all samples once, last batch of size `5 mod 2 = 1`. -/
theorem claim_C2_batch_provider_epoch_witness :
    (0 < 2 ∧ ([2, 0, 4, 1, 3] : List Nat).Perm [0, 1, 2, 3, 4])
    ∧ ((epochBatches 2 ([2, 0, 4, 1, 3] : List Nat)).length =
        (([0, 1, 2, 3, 4] : List Nat).length + 2 - 1) / 2
      ∧ ((epochBatches 2 ([2, 0, 4, 1, 3] : List Nat)).flatten : Multiset Nat)
          = (([0, 1, 2, 3, 4] : List Nat) : Multiset Nat)
      ∧ (∀ c ∈ (epochBatches 2 ([2, 0, 4, 1, 3] : List Nat)).dropLast,
          c.length = 2)
      ∧ (∀ c, (epochBatches 2 ([2, 0, 4, 1, 3] : List Nat)).getLast? = some c →
          c.length = if ([0, 1, 2, 3, 4] : List Nat).length % 2 = 0 then 2
            else ([0, 1, 2, 3, 4] : List Nat).length % 2)) :=
  ⟨⟨by decide, by decide⟩,
   claim_C2_batch_provider_epoch [0, 1, 2, 3, 4] [2, 0, 4, 1, 3] 2
     (by decide) (by decide)⟩

/-- Claim C4: for every batch of `K ≥ 1` images, the classifier's per-class
score output has shape `(K, 10)`: the TensorFlow `MyModel.call` returns a
`(K, 10)` tensor outright, and the PyTorch `CNN.forward` returns the
`(K, 10)` scores as the first component of its result pair. -/
theorem claim_C4_output_shape (K : Nat) (hK : 1 ≤ K) :
    MyModelCallShape ⟨K, 28, 28, 1⟩ = some (K, 10)
    ∧ (∃ feat, CNNforwardShape ⟨K, 1, 28, 28⟩ = some ((K, 10), feat)) :=
  ⟨by unfold MyModelCallShape tfConv2dShape tfFlattenShape denseShape
      norm_num,
   ⟨(K, 1568), by
      unfold CNNforwardShape conv2dShape maxPool2dShape viewFlattenShape
        linearShape
      norm_num⟩⟩

/-- Witness for claim C4 at `K = 1`. -/
theorem claim_C4_output_shape_witness :
    1 ≤ 1
    ∧ (MyModelCallShape ⟨1, 28, 28, 1⟩ = some (1, 10)
      ∧ (∃ feat, CNNforwardShape ⟨1, 1, 28, 28⟩ = some ((1, 10), feat))) :=
  ⟨by decide, claim_C4_output_shape 1 (by decide)⟩

/-- The evaluation routine only flips the train/eval mode flag: its returned
globals are the input globals with `training := false`. -/
theorem test_globals_eq {P G O Img : Type} (c : PyComponents P G O Img)
    (g : PyGlobal P G O) (testLoader : List (Batch Img)) :
    (test c g testLoader).1 = { g with training := false } := by
  simp only [test]
  rcases h : (testLoop c ({ g with training := false } :
      PyGlobal P G O).params testLoader).accuracy with _ | a <;> simp [h]

/-- Claim C5: running the evaluation routine leaves all model parameters
(and their gradient buffers) and all optimizer state exactly as they were
before the call, for every model and every test partition. -/
theorem claim_C5_test_preserves_state {P G O Img : Type}
    (c : PyComponents P G O Img) (g : PyGlobal P G O)
    (testLoader : List (Batch Img)) :
    (test c g testLoader).1.params = g.params
    ∧ (test c g testLoader).1.optState = g.optState
    ∧ (test c g testLoader).1.gradBuf = g.gradBuf := by
  rw [test_globals_eq]
  exact ⟨rfl, rfl, rfl⟩

/-- Claim C6: on an empty test partition the accuracy computation fails with
an explicitly reported fatal error (the print references the never-assigned
local `accuracy`) instead of producing any accuracy value. -/
theorem claim_C6_empty_partition_fails {P G O Img : Type}
    (c : PyComponents P G O Img) (g : PyGlobal P G O) :
    (test c g ([] : List (Batch Img))).2 = Except.error
      "UnboundLocalError: local variable accuracy referenced before assignment"
    := rfl

/-- Claim C8: for every non-empty row of per-class scores, the predicted
class is a valid index carrying the highest score, and when several classes
tie for the highest score the prediction is the lowest such class index. -/
theorem claim_C8_argmax_tie_break (scores : List ℚ) (h : scores ≠ []) :
    argmaxFirst scores < scores.length
    ∧ (∀ j, j < scores.length →
        scores.getD j 0 ≤ scores.getD (argmaxFirst scores) 0)
    ∧ (∀ j, j < scores.length →
        scores.getD j 0 = scores.getD (argmaxFirst scores) 0 →
        argmaxFirst scores ≤ j) :=
  ⟨argmaxFirst_lt_length scores h,
   fun j hj => argmaxFirst_is_max scores j hj,
   fun j hj htie => argmaxFirst_tie_lowest scores j hj htie⟩

/-- Witness for claim C8 on the row `[3, 5, 5, 1]`, whose maximum 5 is tied
between classes 1 and 2. -/
theorem claim_C8_argmax_tie_break_witness :
    (([3, 5, 5, 1] : List ℚ) ≠ [])
    ∧ (argmaxFirst [3, 5, 5, 1] < ([3, 5, 5, 1] : List ℚ).length
      ∧ (∀ j, j < ([3, 5, 5, 1] : List ℚ).length →
          ([3, 5, 5, 1] : List ℚ).getD j 0 ≤
            ([3, 5, 5, 1] : List ℚ).getD (argmaxFirst [3, 5, 5, 1]) 0)
      ∧ (∀ j, j < ([3, 5, 5, 1] : List ℚ).length →
          ([3, 5, 5, 1] : List ℚ).getD j 0 =
            ([3, 5, 5, 1] : List ℚ).getD (argmaxFirst [3, 5, 5, 1]) 0 →
          argmaxFirst [3, 5, 5, 1] ≤ j)) :=
  ⟨by decide, claim_C8_argmax_tie_break [3, 5, 5, 1] (by decide)⟩

/-- Claim C9: running the training loop with an epoch count of 0 leaves
every model parameter unchanged, for every model, optimizer and training
batch provider. -/
theorem claim_C9_zero_epochs_identity {P G O Img : Type}
    (c : PyComponents P G O Img) (g0 : PyGlobal P G O)
    (trainLoader : List (Batch Img)) :
    (train c 0 g0 trainLoader).1.params = g0.params := rfl

/-- Claim C1 (evaluation of the code at the failing input): with the model
forced to always predict class 0 on a test partition of two batches with
labels `0` and `1` (so `M = 1` of `N = 2` labels are 0), the evaluation
loop leaves the accumulators `correct` and `total` at 0, ends with
`accuracy` equal to the LAST batch's accuracy `0` rather than the aggregate
`M/N = 1/2`, and the routine reports `0`. -/
theorem claim_C1_last_batch_accuracy_only :
    (testLoop forcedZeroComponents () twoBatchTestLoader).accuracy = some 0
    ∧ (testLoop forcedZeroComponents () twoBatchTestLoader).correct = 0
    ∧ (testLoop forcedZeroComponents () twoBatchTestLoader).total = 0
    ∧ (test forcedZeroComponents ⟨(), (), (), true⟩ twoBatchTestLoader).2
        = Except.ok (testReportLine 0)
    ∧ (1 : ℚ) / 2 ≠ 0 := by
  have hacc : (testLoop forcedZeroComponents () twoBatchTestLoader).accuracy
      = some 0 := by
    simp only [testLoop, twoBatchTestLoader, forcedZeroComponents,
      alwaysClassZero, List.foldl, List.map]
    norm_num [argmaxFirst]
  refine ⟨hacc, by decide, by decide, ?_, by norm_num⟩
  simp [test, hacc]

/-- Counterexample to claim C7: on a test partition of `N = 2` images the
emitted report line still contains the literal 10000; it is not the spec's
line for `N = 2`. -/
theorem claim_C7_report_line_counterexample :
    (test forcedZeroComponents pyInitGlobal oneBatchOfTwo).2
      = Except.ok (testReportLine 1)
    ∧ testReportLine 1 ≠ specTestReportLine 2 1 := by
  have hacc : (testLoop forcedZeroComponents () oneBatchOfTwo).accuracy
      = some 1 := by
    simp only [testLoop, oneBatchOfTwo, forcedZeroComponents,
      alwaysClassZero, List.foldl, List.map]
    norm_num [argmaxFirst]
  refine ⟨?_, by decide⟩
  simp [test, pyInitGlobal, hacc]

/-! ## Traces of the training loops -/

theorem trainStepPy_trace {P G O Img : Type} (c : PyComponents P G O Img)
    (g : PyGlobal P G O) (b : Batch Img) (ht : g.training = true) :
    (trainStepPy c g b).2.2 = pyBatchEvents b
    ∧ (trainStepPy c g b).1.training = true := by
  constructor
  · simp [trainStepPy, pyBatchEvents, ht]
  · simp [trainStepPy, ht]

theorem trainEpochPy_trace {P G O Img : Type} (c : PyComponents P G O Img)
    (num_epochs total_step : Nat) :
    ∀ (batches : List (Batch Img)) (g : PyGlobal P G O) (msgs : List String)
      (evs : List (PyEvent Img)) (i e : Nat), g.training = true →
      (trainEpochPy c g msgs evs batches i e num_epochs total_step).2.2
          = evs ++ (batches.map pyBatchEvents).flatten
      ∧ (trainEpochPy c g msgs evs batches i e num_epochs
          total_step).1.training = true := by
  intro batches
  induction batches with
  | nil =>
    intro g msgs evs i e ht
    exact ⟨by simp [trainEpochPy], by simpa [trainEpochPy] using ht⟩
  | cons b rest ih =>
    intro g msgs evs i e ht
    have hstep := trainStepPy_trace c g b ht
    have hrec := ih (trainStepPy c g b).1
      (if (i + 1) % 100 = 0 then
        msgs ++ [progressLine (e + 1) num_epochs (i + 1) total_step
          (trainStepPy c g b).2.1]
       else msgs)
      (evs ++ (trainStepPy c g b).2.2) (i + 1) e hstep.2
    constructor
    · simp only [trainEpochPy]
      rw [hrec.1, hstep.1]
      simp [List.append_assoc]
    · simp only [trainEpochPy]
      exact hrec.2

theorem trainRangePy_trace {P G O Img : Type} (c : PyComponents P G O Img)
    (trainLoader : List (Batch Img)) (num_epochs total_step : Nat) :
    ∀ (es : List Nat) (g : PyGlobal P G O) (msgs : List String)
      (evs : List (PyEvent Img)), g.training = true →
      (trainRangePy c g msgs evs trainLoader es num_epochs total_step).2.2
          = evs ++ (List.replicate es.length
              ((trainLoader.map pyBatchEvents).flatten)).flatten
      ∧ (trainRangePy c g msgs evs trainLoader es num_epochs
          total_step).1.training = true := by
  intro es
  induction es with
  | nil =>
    intro g msgs evs ht
    exact ⟨by simp [trainRangePy], by simpa [trainRangePy] using ht⟩
  | cons e rest ih =>
    intro g msgs evs ht
    have hep := trainEpochPy_trace c num_epochs total_step trainLoader g msgs
      evs 0 e ht
    have hrec := ih
      (trainEpochPy c g msgs evs trainLoader 0 e num_epochs total_step).1
      (trainEpochPy c g msgs evs trainLoader 0 e num_epochs total_step).2.1
      (trainEpochPy c g msgs evs trainLoader 0 e num_epochs total_step).2.2
      hep.2
    constructor
    · simp only [trainRangePy]
      rw [hrec.1, hep.1]
      simp [List.replicate_succ, List.append_assoc]
    · simp only [trainRangePy]
      exact hrec.2

theorem train_step_trace {V Gr O Img : Type} (c : TfComponents V Gr O Img)
    (st : TfState V O) (b : Batch Img) :
    (train_step c st b).2 = trainStepEvents b := rfl

theorem test_step_trace {V Gr O Img : Type} (c : TfComponents V Gr O Img)
    (st : TfState V O) (b : Batch Img) :
    (test_step c st b).2 = testStepEvents b := rfl

theorem tfForEach_trace {V O Img : Type}
    (step : TfState V O → Batch Img → TfState V O × List (TfEvent Img))
    (evFn : Batch Img → List (TfEvent Img))
    (hstep : ∀ st b, (step st b).2 = evFn b) :
    ∀ (ds : List (Batch Img)) (st : TfState V O) (evs : List (TfEvent Img)),
      (tfForEach step st evs ds).2 = evs ++ (ds.map evFn).flatten := by
  intro ds
  induction ds with
  | nil => intro st evs; simp [tfForEach]
  | cons b rest ih =>
    intro st evs
    simp only [tfForEach]
    rw [ih, hstep]
    simp [List.append_assoc]

theorem tfEpochLoop_trace {V Gr O Img : Type} (c : TfComponents V Gr O Img)
    (train_ds test_ds : List (Batch Img)) :
    ∀ (es : List Nat) (st : TfState V O) (evs : List (TfEvent Img)),
      (tfEpochLoop c train_ds test_ds st evs es).2
        = evs ++ (List.replicate es.length
            (tfEpochEvents train_ds test_ds)).flatten := by
  intro es
  induction es with
  | nil => intro st evs; simp [tfEpochLoop]
  | cons e rest ih =>
    intro st evs
    simp only [tfEpochLoop]
    rw [ih]
    rw [tfForEach_trace (test_step c) testStepEvents
      (fun st b => test_step_trace c st b)]
    rw [tfForEach_trace (train_step c) trainStepEvents
      (fun st b => train_step_trace c st b)]
    simp [tfEpochEvents, List.replicate_succ, List.append_assoc]

/-- Claim C3: for every positive epoch count `E`, the training loop executes
exactly `E` full epochs, and within each epoch processes every training
batch in order by computing model scores in training mode, computing the
loss on the true labels, computing gradients, applying exactly one optimizer
update step, and updating the loss bookkeeping — once per batch, in source
order.  The operation trace of either notebook's loop is exactly `E` copies
of its per-epoch trace, itself the in-order concatenation of the per-batch
operation lists. -/
theorem claim_C3_training_loop_order {P G O Img : Type}
    (c : PyComponents P G O Img) (E : Nat) (hE : 0 < E)
    (g0 : PyGlobal P G O) (trainLoader : List (Batch Img))
    {V Gr Oc Imgc : Type} (tc : TfComponents V Gr Oc Imgc)
    (st0 : TfState V Oc) (train_ds test_ds : List (Batch Imgc)) :
    (train c E g0 trainLoader).2.2
      = (List.replicate E ((trainLoader.map pyBatchEvents).flatten)).flatten
    ∧ (tfTrainingLoop tc E train_ds test_ds st0).2
      = (List.replicate E (tfEpochEvents train_ds test_ds)).flatten := by
  constructor
  · have h := (trainRangePy_trace c trainLoader E trainLoader.length
      (List.range E) { g0 with training := true } [] [] rfl).1
    simpa [train, List.length_range] using h
  · have h := tfEpochLoop_trace tc train_ds test_ds (List.range E) st0 []
    simpa [tfTrainingLoop, List.length_range] using h

/-- Witness for claim C3: one epoch over a one-batch training set (and an
empty TensorFlow test set). -/
theorem claim_C3_training_loop_order_witness :
    0 < 1
    ∧ ((train trivialComponents 1 pyInitGlobal
          [(⟨[], [0]⟩ : Batch Unit)]).2.2
        = (List.replicate 1
            ((([(⟨[], [0]⟩ : Batch Unit)]).map pyBatchEvents).flatten)).flatten
      ∧ (tfTrainingLoop tfTrivialComponents 1 [(⟨[], [0]⟩ : Batch Unit)] []
          tfInitState).2
        = (List.replicate 1
            (tfEpochEvents [(⟨[], [0]⟩ : Batch Unit)] [])).flatten) :=
  ⟨by decide,
   claim_C3_training_loop_order trivialComponents 1 (by decide) pyInitGlobal
     [⟨[], [0]⟩] tfTrivialComponents tfInitState [⟨[], [0]⟩] []⟩

/-! ## The callers use only the score component of the model output -/

theorem testLoop_congr {P G O Img : Type} (c₁ c₂ : PyComponents P G O Img)
    (hfst : ∀ p imgs, (c₁.cnnApply p imgs).1 = (c₂.cnnApply p imgs).1)
    (params : P) (loader : List (Batch Img)) :
    testLoop c₁ params loader = testLoop c₂ params loader := by
  unfold testLoop
  congr 1
  funext st batch
  rw [hfst]

theorem trainStepPy_congr {P G O Img : Type} (c₁ c₂ : PyComponents P G O Img)
    (hfst : ∀ p imgs, (c₁.cnnApply p imgs).1 = (c₂.cnnApply p imgs).1)
    (hl : c₁.loss_func = c₂.loss_func) (hz : c₁.zeroG = c₂.zeroG)
    (hg : c₁.gradAccum = c₂.gradAccum) (ho : c₁.optStep = c₂.optStep)
    (g : PyGlobal P G O) (b : Batch Img) :
    trainStepPy c₁ g b = trainStepPy c₂ g b := by
  simp only [trainStepPy, hfst, hl, hz, hg, ho]

theorem trainEpochPy_congr {P G O Img : Type} (c₁ c₂ : PyComponents P G O Img)
    (hfst : ∀ p imgs, (c₁.cnnApply p imgs).1 = (c₂.cnnApply p imgs).1)
    (hl : c₁.loss_func = c₂.loss_func) (hz : c₁.zeroG = c₂.zeroG)
    (hg : c₁.gradAccum = c₂.gradAccum) (ho : c₁.optStep = c₂.optStep)
    (num_epochs total_step : Nat) :
    ∀ (batches : List (Batch Img)) (g : PyGlobal P G O) (msgs : List String)
      (evs : List (PyEvent Img)) (i e : Nat),
      trainEpochPy c₁ g msgs evs batches i e num_epochs total_step
        = trainEpochPy c₂ g msgs evs batches i e num_epochs total_step := by
  intro batches
  induction batches with
  | nil => intro g msgs evs i e; rfl
  | cons b rest ih =>
    intro g msgs evs i e
    simp only [trainEpochPy]
    rw [trainStepPy_congr c₁ c₂ hfst hl hz hg ho g b, ih]

theorem trainRangePy_congr {P G O Img : Type} (c₁ c₂ : PyComponents P G O Img)
    (hfst : ∀ p imgs, (c₁.cnnApply p imgs).1 = (c₂.cnnApply p imgs).1)
    (hl : c₁.loss_func = c₂.loss_func) (hz : c₁.zeroG = c₂.zeroG)
    (hg : c₁.gradAccum = c₂.gradAccum) (ho : c₁.optStep = c₂.optStep)
    (trainLoader : List (Batch Img)) (num_epochs total_step : Nat) :
    ∀ (es : List Nat) (g : PyGlobal P G O) (msgs : List String)
      (evs : List (PyEvent Img)),
      trainRangePy c₁ g msgs evs trainLoader es num_epochs total_step
        = trainRangePy c₂ g msgs evs trainLoader es num_epochs total_step := by
  intro es
  induction es with
  | nil => intro g msgs evs; rfl
  | cons e rest ih =>
    intro g msgs evs
    simp only [trainRangePy]
    rw [trainEpochPy_congr c₁ c₂ hfst hl hz hg ho num_epochs total_step
      trainLoader g msgs evs 0 e, ih]

/-- Claim C10: the PyTorch forward pass returns a pair — the `(K, 10)`
logits first and the flattened conv2 features of shape
`(K, 32*7*7) = (K, 1568)` second — and the training and test code consume
only the first component: replacing the feature component of the model
output (keeping the scores) changes neither the evaluation loop nor the
training loop. -/
theorem claim_C10_forward_returns_pair {P G O Img : Type} (K : Nat)
    (c₁ c₂ : PyComponents P G O Img)
    (hfst : ∀ p imgs, (c₁.cnnApply p imgs).1 = (c₂.cnnApply p imgs).1)
    (hl : c₁.loss_func = c₂.loss_func) (hz : c₁.zeroG = c₂.zeroG)
    (hg : c₁.gradAccum = c₂.gradAccum) (ho : c₁.optStep = c₂.optStep)
    (params : P) (testLoader trainLoader : List (Batch Img)) (E : Nat)
    (g0 : PyGlobal P G O) :
    CNNforwardShape ⟨K, 1, 28, 28⟩ = some ((K, 10), (K, 32 * 7 * 7))
    ∧ testLoop c₁ params testLoader = testLoop c₂ params testLoader
    ∧ train c₁ E g0 trainLoader = train c₂ E g0 trainLoader := by
  refine ⟨?_, testLoop_congr c₁ c₂ hfst params testLoader, ?_⟩
  · unfold CNNforwardShape conv2dShape maxPool2dShape viewFlattenShape
      linearShape
    norm_num
  · unfold train
    rw [trainRangePy_congr c₁ c₂ hfst hl hz hg ho trainLoader E
      trainLoader.length (List.range E)]

/-- Witness for claim C10, with two concrete component records that agree on
the score component and differ on the feature component. -/
theorem claim_C10_forward_returns_pair_witness :
    ((∀ (p : Unit) (imgs : List Unit),
        (trivialComponents.cnnApply p imgs).1
          = (trivialComponentsAlt.cnnApply p imgs).1)
      ∧ trivialComponents.loss_func = trivialComponentsAlt.loss_func
      ∧ trivialComponents.zeroG = trivialComponentsAlt.zeroG
      ∧ trivialComponents.gradAccum = trivialComponentsAlt.gradAccum
      ∧ trivialComponents.optStep = trivialComponentsAlt.optStep)
    ∧ (CNNforwardShape ⟨2, 1, 28, 28⟩ = some ((2, 10), (2, 32 * 7 * 7))
      ∧ testLoop trivialComponents () twoBatchTestLoader
          = testLoop trivialComponentsAlt () twoBatchTestLoader
      ∧ train trivialComponents 1 pyInitGlobal hundredBatches
          = train trivialComponentsAlt 1 pyInitGlobal hundredBatches) :=
  ⟨⟨fun _ _ => rfl, rfl, rfl, rfl, rfl⟩,
   claim_C10_forward_returns_pair 2 trivialComponents trivialComponentsAlt
     (fun _ _ => rfl) rfl rfl rfl rfl () twoBatchTestLoader hundredBatches 1
     pyInitGlobal⟩

/-! ## Form of the emitted progress lines -/

theorem trainEpochPy_msgs {P G O Img : Type} (c : PyComponents P G O Img)
    (E t : Nat) :
    ∀ (batches : List (Batch Img)) (g : PyGlobal P G O) (msgs : List String)
      (evs : List (PyEvent Img)) (i e : Nat),
      e + 1 ≤ E → i + batches.length ≤ t →
      (∀ m ∈ msgs, ∃ ep s loss, 1 ≤ ep ∧ ep ≤ E ∧ 1 ≤ s ∧ s ≤ t ∧
        s % 100 = 0 ∧ m = progressLine ep E s t loss) →
      ∀ m ∈ (trainEpochPy c g msgs evs batches i e E t).2.1,
        ∃ ep s loss, 1 ≤ ep ∧ ep ≤ E ∧ 1 ≤ s ∧ s ≤ t ∧ s % 100 = 0 ∧
          m = progressLine ep E s t loss := by
  intro batches
  induction batches with
  | nil =>
    intro g msgs evs i e he hi hmsgs m hm
    simp only [trainEpochPy] at hm
    exact hmsgs m hm
  | cons b rest ih =>
    intro g msgs evs i e he hi hmsgs m hm
    simp only [trainEpochPy] at hm
    have hi2 : (i + 1) + rest.length ≤ t := by
      simp only [List.length_cons] at hi
      omega
    refine ih (trainStepPy c g b).1 _ _ (i + 1) e he hi2 ?_ m hm
    intro m2 hm2
    by_cases hguard : (i + 1) % 100 = 0
    · rw [if_pos hguard] at hm2
      rcases List.mem_append.mp hm2 with h | h
      · exact hmsgs m2 h
      · rcases List.mem_singleton.mp h with rfl
        exact ⟨e + 1, i + 1, (trainStepPy c g b).2.1, by omega, he, by omega,
          by omega, hguard, rfl⟩
    · rw [if_neg hguard] at hm2
      exact hmsgs m2 hm2

theorem trainRangePy_msgs {P G O Img : Type} (c : PyComponents P G O Img)
    (trainLoader : List (Batch Img)) (E t : Nat)
    (hloader : trainLoader.length ≤ t) :
    ∀ (es : List Nat) (g : PyGlobal P G O) (msgs : List String)
      (evs : List (PyEvent Img)),
      (∀ e ∈ es, e + 1 ≤ E) →
      (∀ m ∈ msgs, ∃ ep s loss, 1 ≤ ep ∧ ep ≤ E ∧ 1 ≤ s ∧ s ≤ t ∧
        s % 100 = 0 ∧ m = progressLine ep E s t loss) →
      ∀ m ∈ (trainRangePy c g msgs evs trainLoader es E t).2.1,
        ∃ ep s loss, 1 ≤ ep ∧ ep ≤ E ∧ 1 ≤ s ∧ s ≤ t ∧ s % 100 = 0 ∧
          m = progressLine ep E s t loss := by
  intro es
  induction es with
  | nil =>
    intro g msgs evs hes hmsgs m hm
    simp only [trainRangePy] at hm
    exact hmsgs m hm
  | cons e rest ih =>
    intro g msgs evs hes hmsgs m hm
    simp only [trainRangePy] at hm
    refine ih _ _ _ (fun e2 he2 => hes e2 (List.mem_cons_of_mem e he2)) ?_ m hm
    exact trainEpochPy_msgs c E t trainLoader g msgs evs 0 e
      (hes e (List.mem_cons_self e rest)) (by omega) hmsgs

/-- Claim C7 (amended): every progress line emitted during training has the
exact form `Epoch [e/E], Step [s/S], Loss: <4-decimal float>`, emitted at
the configured interval of 100 batches; the report line after evaluation
has the form `Test Accuracy of the model on the 10000 test images:
<3-decimal float>`, the sample count 10000 being hardcoded in the source
irrespective of the actual test partition size. -/
theorem claim_C7_report_formats_amended {P G O Img : Type}
    (c : PyComponents P G O Img) (E : Nat) (g0 : PyGlobal P G O)
    (trainLoader : List (Batch Img)) (m : String)
    (hm : m ∈ (train c E g0 trainLoader).2.1)
    {Pb Gb Ob Imgb : Type} (cb : PyComponents Pb Gb Ob Imgb)
    (gb : PyGlobal Pb Gb Ob) (testLoader : List (Batch Imgb)) (a : ℚ)
    (ha : (testLoop cb gb.params testLoader).accuracy = some a) :
    (∃ ep s loss, 1 ≤ ep ∧ ep ≤ E ∧ 1 ≤ s ∧ s ≤ trainLoader.length
      ∧ s % 100 = 0 ∧ m = progressLine ep E s trainLoader.length loss)
    ∧ (test cb gb testLoader).2 = Except.ok (testReportLine a) := by
  constructor
  · have hm2 : m ∈ (trainRangePy c { g0 with training := true } [] []
        trainLoader (List.range E) E trainLoader.length).2.1 := by
      simpa [train] using hm
    refine trainRangePy_msgs c trainLoader E trainLoader.length le_rfl
      (List.range E) { g0 with training := true } [] [] ?_ ?_ m hm2
    · intro e he
      have := List.mem_range.mp he
      omega
    · intro m2 hm2
      simp at hm2
  · simp [test, ha]

/-- Witness for claim C7 (amended): one epoch over 100 trivial batches emits
exactly the step-100 progress line, and a two-batch evaluation reports the
hardcoded line. -/
theorem claim_C7_report_formats_amended_witness :
    (progressLine 1 1 100 100 0
        ∈ (train trivialComponents 1 pyInitGlobal hundredBatches).2.1
      ∧ (testLoop forcedZeroComponents
          (⟨(), (), (), true⟩ : PyGlobal Unit Unit Unit).params
          twoBatchTestLoader).accuracy = some 0)
    ∧ ((∃ ep s loss, 1 ≤ ep ∧ ep ≤ 1 ∧ 1 ≤ s ∧ s ≤ hundredBatches.length
        ∧ s % 100 = 0 ∧ progressLine 1 1 100 100 0
            = progressLine ep 1 s hundredBatches.length loss)
      ∧ (test forcedZeroComponents
          (⟨(), (), (), true⟩ : PyGlobal Unit Unit Unit)
          twoBatchTestLoader).2 = Except.ok (testReportLine 0)) := by
  have hlist : (train trivialComponents 1 pyInitGlobal hundredBatches).2.1
      = [progressLine 1 1 100 100 0] := rfl
  have hmem : progressLine 1 1 100 100 0
      ∈ (train trivialComponents 1 pyInitGlobal hundredBatches).2.1 := by
    rw [hlist]
    exact List.mem_singleton.mpr rfl
  have hacc : (testLoop forcedZeroComponents
      (⟨(), (), (), true⟩ : PyGlobal Unit Unit Unit).params
      twoBatchTestLoader).accuracy = some 0 := by
    simp only [testLoop, twoBatchTestLoader, forcedZeroComponents,
      alwaysClassZero, List.foldl, List.map]
    norm_num [argmaxFirst]
  exact ⟨⟨hmem, hacc⟩,
    claim_C7_report_formats_amended trivialComponents 1 pyInitGlobal
      hundredBatches (progressLine 1 1 100 100 0) hmem forcedZeroComponents
      ⟨(), (), (), true⟩ twoBatchTestLoader 0 hacc⟩

end MNISTNotebooks
